import Mathlib

/-!
Verification of the Collab-Finder web application (`app.py`).

The Python source is shallowly embedded: each SQL table becomes a Lean list
of rows, each route handler becomes a pure function from the database state
(plus its request inputs) to a result together with the new database state.
Third-party library behaviour that the application merely calls into
(password hashing, `werkzeug.secure_filename`) is passed in as an explicit
function parameter.  SQLite `NULL` text values are represented by `""` for
the profile text columns (observationally equivalent for every property
proved here: `normalize_text` maps both to `""`, a non-empty `LIKE` pattern
rejects both, and equality against a non-empty filter rejects both); the
nullable `photo_filename` column, whose `NULL`-ness is semantically
significant through `COALESCE`, is modelled as `Option String`.
-/

namespace CollabFinder

/-! ### Text normalization — `normalize_text` (app.py lines 267-270)

`re.sub(r"\s+", " ", s).strip()`: collapse every maximal run of whitespace
characters to a single space, then strip the ends.  After the substitution
the only whitespace characters left are plain spaces, so stripping spaces
is exactly Python's `strip()` on the substituted string. -/

/-- The whitespace characters matched by the regex class. -/
def isPySpace (c : Char) : Bool :=
  c == ' ' || c == '\t' || c == '\n' || c == '\r' || c == '\x0b' || c == '\x0c'

/-- Replace each maximal run of whitespace by one `' '`. -/
def collapseWS : List Char → List Char
  | [] => []
  | [c] => if isPySpace c then [' '] else [c]
  | c :: d :: cs =>
    if isPySpace c && isPySpace d then collapseWS (d :: cs)
    else (if isPySpace c then ' ' else c) :: collapseWS (d :: cs)

/-- Strip spaces from both ends. -/
def stripSpaces (l : List Char) : List Char :=
  ((l.dropWhile (· == ' ')).reverse.dropWhile (· == ' ')).reverse

/-- `normalize_text` from app.py (the `if not s: return ""` guard is the
`[]` case of `collapseWS`). -/
def normalize_text (s : String) : String :=
  ⟨stripSpaces (collapseWS s.data)⟩

/-- ASCII lower-casing, character by character (Python `str.lower` on the
ASCII data this application handles; `Char.toLower` only affects `A`-`Z`,
matching SQLite's ASCII-only case folding). -/
def lowerStr (s : String) : String :=
  ⟨s.data.map Char.toLower⟩

/-! ### Profile rows (table `profiles`, app.py lines 173-191) -/

structure ProfileRow where
  user_id : Nat
  photo_filename : Option String
  title : String
  full_name : String
  highest_qualification : String
  country : String
  university : String
  school_faculty : String
  position : String
  supervisor_name : String
  bio : String
  skills : String
  device_access : String
  updated_at : String
  deriving DecidableEq, Repr

/-- The required-field accessors of `profile_is_complete` (app.py 273-285);
`device_access` is intentionally not in the list. -/
def requiredFields : List (ProfileRow → String) :=
  [(·.full_name), (·.highest_qualification), (·.country), (·.university),
   (·.position), (·.bio), (·.skills)]

/-- `profile_is_complete` (app.py lines 273-285): every required field is
truthy (non-empty) after `normalize_text`. -/
def profile_is_complete (p : ProfileRow) : Bool :=
  requiredFields.all fun f => normalize_text (f p) != ""

/-- C1: `profile_is_complete` is true iff each of the seven required fields
`full_name`, `highest_qualification`, `country`, `university`, `position`,
`bio`, `skills` is non-empty after whitespace normalization, and the values
of `device_access`, `title`, `school_faculty`, `supervisor_name` and
`photo_filename` never affect the result. -/
theorem profile_is_complete_spec (p : ProfileRow) :
    (profile_is_complete p = true ↔
      (normalize_text p.full_name ≠ "" ∧ normalize_text p.highest_qualification ≠ "" ∧
       normalize_text p.country ≠ "" ∧ normalize_text p.university ≠ "" ∧
       normalize_text p.position ≠ "" ∧ normalize_text p.bio ≠ "" ∧
       normalize_text p.skills ≠ "")) ∧
    (∀ d t sf sn ph,
      profile_is_complete { p with device_access := d, title := t, school_faculty := sf,
                                   supervisor_name := sn, photo_filename := ph } =
        profile_is_complete p) := by
  constructor
  · simp [profile_is_complete, requiredFields]
  · intro d t sf sn ph
    rfl

/-! ### Users, messages and the database state (app.py lines 161-204) -/

structure UserRow where
  id : Nat
  email : String
  password_hash : String
  created_at : String
  deriving DecidableEq, Repr

structure Msg where
  sender_id : Nat
  receiver_id : Nat
  body : String
  created_at : String
  is_read : Bool
  deriving DecidableEq, Repr

/-- The three tables.  Lists are in rowid (insertion) order; messages are
append-only, so list order is `id` order. -/
structure DB where
  users : List UserRow
  profiles : List ProfileRow
  messages : List Msg
  deriving DecidableEq, Repr

/-- `fetch_user` (app.py 254-255): `SELECT * FROM users WHERE id=?`. -/
def fetch_user (db : DB) (user_id : Nat) : Option UserRow :=
  db.users.find? fun u => u.id == user_id

/-- `fetch_profile` (app.py 258-259): `SELECT * FROM profiles WHERE user_id=?`. -/
def fetch_profile (db : DB) (user_id : Nat) : Option ProfileRow :=
  db.profiles.find? fun p => p.user_id == user_id

/-! ### Messaging: `send_message` (app.py 1143-1170) and `thread` (app.py 1214-1258) -/

inductive SendOutcome where
  | redirectView  -- flash + redirect back to the profile page (self-message or empty body)
  | notFound      -- abort(404): recipient has no user row
  | sent          -- row inserted, redirect to the thread
  deriving DecidableEq, Repr

/-- `send_message`: guard against self-messaging, then against an empty
normalized body, then 404 on a missing recipient, else append one row
(`is_read` defaults to 0). -/
def send_message (db : DB) (uid user_id : Nat) (bodyRaw now : String) :
    SendOutcome × DB :=
  if uid == user_id then (.redirectView, db)
  else
    let body := normalize_text bodyRaw
    if body == "" then (.redirectView, db)
    else if (fetch_user db user_id).isNone then (.notFound, db)
    else (.sent, { db with messages := db.messages ++ [⟨uid, user_id, body, now, false⟩] })

inductive ThreadOutcome where
  | redirectInbox  -- "No thread with yourself."
  | notFound       -- abort(404): counterpart has no profile row
  | ok
  deriving DecidableEq, Repr

/-- The effect of `UPDATE messages SET is_read=1 WHERE receiver_id=? AND
sender_id=? AND is_read=0` on one row (app.py 1241-1248). -/
def markReadOne (uid other : Nat) (m : Msg) : Msg :=
  if m.receiver_id == uid && m.sender_id == other && m.is_read == false
  then { m with is_read := true } else m

/-- The mark-as-read step of the thread view, over the whole table. -/
def markRead (msgs : List Msg) (uid other : Nat) : List Msg :=
  msgs.map (markReadOne uid other)

/-- `thread`: redirect on self, 404 when the counterpart has no profile row,
otherwise render the (≤ 500) messages and mark the unread ones addressed to
the viewer as read.  Only the database effect and outcome are modelled; the
rendered message list is a read-only projection. -/
def thread (db : DB) (uid user_id : Nat) : ThreadOutcome × DB :=
  if uid == user_id then (.redirectInbox, db)
  else
    match fetch_profile db user_id with
    | none => (.notFound, db)
    | some _ => (.ok, { db with messages := markRead db.messages uid user_id })

/-! ### Registration (app.py 858-894) -/

inductive RegOutcome where
  | errRequired    -- empty email or password, redirect back to the register form
  | redirectLogin  -- duplicate email
  | success        -- user + blank profile inserted, session established
  deriving DecidableEq, Repr

/-- `AUTOINCREMENT` id for the inserted user row. -/
def freshUserId (us : List UserRow) : Nat :=
  (us.foldr (fun u a => max u.id a) 0) + 1

/-- The `INSERT INTO profiles(user_id, updated_at)` row: every other column
is NULL. -/
def blankProfile (uid : Nat) (now : String) : ProfileRow :=
  { user_id := uid, photo_filename := none, title := "", full_name := "",
    highest_qualification := "", country := "", university := "", school_faculty := "",
    position := "", supervisor_name := "", bio := "", skills := "", device_access := "",
    updated_at := now }

/-- `register` (POST): normalize and lower-case the email, reject empty
email/password, reject an already-registered email with a redirect to the
login page, otherwise insert one user row and one blank profile row.
Password hashing (`generate_password_hash`) is the `hash` parameter. -/
def register (db : DB) (emailRaw password now : String) (hash : String → String) :
    RegOutcome × DB :=
  let email := lowerStr (normalize_text emailRaw)
  if email == "" || password == "" then (.errRequired, db)
  else if (db.users.find? fun u => u.email == email).isSome then (.redirectLogin, db)
  else
    let uid := freshUserId db.users
    (.success, { db with users := db.users ++ [⟨uid, email, hash password, now⟩],
                         profiles := db.profiles ++ [blankProfile uid now] })

/-! ### Reachable database states

Handlers that write to the database: `register`, `send_message`, and the
mark-as-read step of `thread`.  Every other handler (login, logout,
`profile_edit`, the various views) either only reads the database or only
writes the `users`/`profiles` tables, which the `otherTables` constructor
over-approximates. -/

inductive Reachable : DB → Prop
  | init : Reachable ⟨[], [], []⟩
  | reg (db : DB) (e pw now : String) (h : String → String) :
      Reachable db → Reachable (register db e pw now h).2
  | send (db : DB) (uid tid : Nat) (body now : String) :
      Reachable db → Reachable (send_message db uid tid body now).2
  | openThread (db : DB) (uid tid : Nat) :
      Reachable db → Reachable (thread db uid tid).2
  | otherTables (db : DB) (us : List UserRow) (ps : List ProfileRow) :
      Reachable db → Reachable ⟨us, ps, db.messages⟩

theorem register_messages (db : DB) (e pw now : String) (h : String → String) :
    ((register db e pw now h).2).messages = db.messages := by
  unfold register
  dsimp only
  split
  · rfl
  · split
    · rfl
    · rfl

theorem markRead_ids (msgs : List Msg) (uid other : Nat) (m' : Msg)
    (hm : m' ∈ markRead msgs uid other) :
    ∃ m ∈ msgs, m'.sender_id = m.sender_id ∧ m'.receiver_id = m.receiver_id := by
  unfold markRead at hm
  obtain ⟨m, hmem, rfl⟩ := List.mem_map.mp hm
  refine ⟨m, hmem, ?_⟩
  unfold markReadOne
  split <;> exact ⟨rfl, rfl⟩

theorem thread_messages (db : DB) (uid tid : Nat) :
    ((thread db uid tid).2).messages = db.messages ∨
    ((thread db uid tid).2).messages = markRead db.messages uid tid := by
  unfold thread
  split
  · exact .inl rfl
  · split
    · exact .inl rfl
    · exact .inr rfl

theorem send_message_messages (db : DB) (uid tid : Nat) (body now : String) :
    ((send_message db uid tid body now).2).messages = db.messages ∨
    (uid ≠ tid ∧ ((send_message db uid tid body now).2).messages =
        db.messages ++ [⟨uid, tid, normalize_text body, now, false⟩]) := by
  unfold send_message
  by_cases h : uid = tid
  · simp [h]
  · simp only [beq_iff_eq, h, if_false]
    split
    · exact .inl rfl
    · split
      · exact .inl rfl
      · exact .inr ⟨h, rfl⟩

/-- C2: `send_message` to one's own id fails with a redirect and no insert;
an empty (whitespace-only) body fails with a redirect and no insert; a
recipient without a user row yields a 404 and no insert; otherwise exactly
one row carrying the normalized body is appended.  Consequently no
reachable database has a message whose sender equals its receiver. -/
theorem send_message_spec :
    (∀ db uid body now, send_message db uid uid body now = (.redirectView, db)) ∧
    (∀ db uid tid body now, normalize_text body = "" →
        send_message db uid tid body now = (.redirectView, db)) ∧
    (∀ db uid tid body now, uid ≠ tid → normalize_text body ≠ "" →
        fetch_user db tid = none →
        send_message db uid tid body now = (.notFound, db)) ∧
    (∀ db uid tid body now, uid ≠ tid → normalize_text body ≠ "" →
        (fetch_user db tid).isSome = true →
        send_message db uid tid body now =
          (.sent, { db with messages :=
              db.messages ++ [⟨uid, tid, normalize_text body, now, false⟩] })) ∧
    (∀ db, Reachable db → ∀ m ∈ db.messages, m.sender_id ≠ m.receiver_id) := by
  refine ⟨?_, ?_, ?_, ?_, ?_⟩
  · intro db uid body now
    simp [send_message]
  · intro db uid tid body now h
    by_cases huid : uid = tid
    · simp [send_message, huid]
    · simp [send_message, huid, h]
  · intro db uid tid body now h1 h2 h3
    simp [send_message, h1, h2, h3]
  · intro db uid tid body now h1 h2 h3
    rw [Option.isSome_iff_ne_none] at h3
    simp [send_message, h1, h2, Option.isNone_iff_eq_none, h3]
  · intro db hr
    induction hr with
    | init =>
      intro m hm
      simp at hm
    | reg db e pw now h _ ih =>
      rw [register_messages]
      exact ih
    | send db uid tid body now _ ih =>
      rcases send_message_messages db uid tid body now with hc | ⟨hne, hc⟩
      · rw [hc]; exact ih
      · rw [hc]
        intro m hm
        rcases List.mem_append.mp hm with hm | hm
        · exact ih m hm
        · rcases List.mem_singleton.mp hm with rfl
          exact hne
    | openThread db uid tid _ ih =>
      rcases thread_messages db uid tid with hc | hc
      · rw [hc]; exact ih
      · rw [hc]
        intro m' hm'
        obtain ⟨m, hm, hs, hr'⟩ := markRead_ids db.messages uid tid m' hm'
        rw [hs, hr']
        exact ih m hm
    | otherTables db us ps _ ih =>
      exact ih

/-- Concrete instantiations of every case of `send_message_spec`, including
the no-self-message invariant evaluated on a state reached by an actual
send. -/
theorem send_message_spec_witness :
    send_message ⟨[], [], []⟩ 1 1 "hi" "t" = (.redirectView, ⟨[], [], []⟩) ∧
    send_message ⟨[], [], []⟩ 1 2 "  " "t" = (.redirectView, ⟨[], [], []⟩) ∧
    send_message ⟨[], [], []⟩ 1 2 "hi" "t" = (.notFound, ⟨[], [], []⟩) ∧
    send_message ⟨[⟨2, "b@x.y", "h", "t"⟩], [], []⟩ 1 2 " hi  there " "t2" =
      (.sent, ⟨[⟨2, "b@x.y", "h", "t"⟩], [], [⟨1, 2, "hi there", "t2", false⟩]⟩) ∧
    (1 : Nat) ≠ 2 :=
  ⟨send_message_spec.1 ⟨[], [], []⟩ 1 "hi" "t",
   send_message_spec.2.1 ⟨[], [], []⟩ 1 2 "  " "t" (by decide),
   send_message_spec.2.2.1 ⟨[], [], []⟩ 1 2 "hi" "t" (by decide) (by decide) (by decide),
   send_message_spec.2.2.2.1 ⟨[⟨2, "b@x.y", "h", "t"⟩], [], []⟩ 1 2 " hi  there " "t2"
     (by decide) (by decide) (by decide),
   send_message_spec.2.2.2.2
     (send_message ⟨[⟨2, "b@x.y", "h", "t"⟩], [], []⟩ 1 2 "hi" "t").2
     (Reachable.send _ 1 2 "hi" "t"
       (Reachable.otherTables ⟨[], [], []⟩ [⟨2, "b@x.y", "h", "t"⟩] [] Reachable.init))
     ⟨1, 2, "hi", "t", false⟩ (by decide)⟩

theorem markReadOne_idem (uid other : Nat) (m : Msg) :
    markReadOne uid other (markReadOne uid other m) = markReadOne uid other m := by
  by_cases hc : (m.receiver_id == uid && m.sender_id == other && m.is_read == false) = true
  · have h1 : markReadOne uid other m = { m with is_read := true } := by
      unfold markReadOne
      rw [if_pos hc]
    rw [h1]
    unfold markReadOne
    simp
  · have h1 : markReadOne uid other m = m := by
      unfold markReadOne
      rw [if_neg hc]
    rw [h1, h1]

theorem markRead_idem (msgs : List Msg) (uid other : Nat) :
    markRead (markRead msgs uid other) uid other = markRead msgs uid other := by
  unfold markRead
  rw [List.map_map]
  exact List.map_congr_left fun m _ => markReadOne_idem uid other m

theorem thread_of_found (db : DB) (A B : Nat) (hAB : A ≠ B) (p : ProfileRow)
    (hp : fetch_profile db B = some p) :
    thread db A B = (.ok, { db with messages := markRead db.messages A B }) := by
  unfold thread
  simp [hAB, hp]

/-- C4: opening the thread view as `A` for counterpart `B` keeps the user
and profile tables, keeps the number, senders, receivers, bodies and
timestamps of all messages, sets the read flag exactly on the messages sent
by `B` to `A` (leaving every other read flag alone), and doing it a second
time changes nothing. -/
theorem thread_markRead_spec (db : DB) (A B : Nat) (hAB : A ≠ B)
    (hprof : (fetch_profile db B).isSome = true) :
    ((thread db A B).2.users = db.users ∧ (thread db A B).2.profiles = db.profiles) ∧
    (thread db A B).2.messages.length = db.messages.length ∧
    (∀ i (h : i < db.messages.length) (h' : i < (thread db A B).2.messages.length),
      ((thread db A B).2.messages.get ⟨i, h'⟩).sender_id = (db.messages.get ⟨i, h⟩).sender_id ∧
      ((thread db A B).2.messages.get ⟨i, h'⟩).receiver_id = (db.messages.get ⟨i, h⟩).receiver_id ∧
      ((thread db A B).2.messages.get ⟨i, h'⟩).body = (db.messages.get ⟨i, h⟩).body ∧
      ((thread db A B).2.messages.get ⟨i, h'⟩).created_at = (db.messages.get ⟨i, h⟩).created_at ∧
      ((thread db A B).2.messages.get ⟨i, h'⟩).is_read =
        ((db.messages.get ⟨i, h⟩).is_read ||
          ((db.messages.get ⟨i, h⟩).sender_id == B && (db.messages.get ⟨i, h⟩).receiver_id == A))) ∧
    (thread ((thread db A B).2) A B).2 = (thread db A B).2 := by
  obtain ⟨p, hp⟩ := Option.isSome_iff_exists.mp hprof
  have hthread := thread_of_found db A B hAB p hp
  refine ⟨⟨by rw [hthread], by rw [hthread]⟩, ?_, ?_, ?_⟩
  · rw [hthread]
    exact List.length_map _ _
  · intro i h h'
    have hmsgs : (thread db A B).2.messages = markRead db.messages A B := by rw [hthread]
    have hget : (thread db A B).2.messages.get ⟨i, h'⟩ =
        markReadOne A B (db.messages.get ⟨i, h⟩) := by
      rw [List.get_of_eq hmsgs]
      exact List.get_map _
    rw [hget]
    set m := db.messages.get ⟨i, h⟩ with hm
    unfold markReadOne
    by_cases hc : (m.receiver_id == A && m.sender_id == B && m.is_read == false) = true
    · rw [if_pos hc]
      simp only [Bool.and_eq_true, beq_iff_eq] at hc
      obtain ⟨⟨hrecv, hsend⟩, hread⟩ := hc
      refine ⟨rfl, rfl, rfl, rfl, ?_⟩
      simp [hrecv, hsend, hread]
    · rw [if_neg hc]
      refine ⟨rfl, rfl, rfl, rfl, ?_⟩
      cases hb : m.is_read with
      | true => simp
      | false =>
        have hx : (m.sender_id == B && m.receiver_id == A) = false := by
          by_contra hxc
          rw [Bool.not_eq_false, Bool.and_eq_true, beq_iff_eq, beq_iff_eq] at hxc
          exact hc (by simp [hxc.1, hxc.2, hb])
        rw [hx]
        rfl
  · have hfetch2 : fetch_profile { db with messages := markRead db.messages A B } B = some p := hp
    rw [hthread, thread_of_found _ A B hAB p hfetch2]
    simp [markRead_idem]

/-- `thread_markRead_spec` evaluated on a three-message database: the
mark-as-read pass preserves the message count and a second opening leaves
the state fixed. -/
theorem thread_markRead_spec_witness :
    (thread ⟨[], [⟨2, none, "", "Bob", "", "", "", "", "", "", "", "", "", "t"⟩],
        [⟨2, 1, "hello", "t", false⟩, ⟨1, 2, "yo", "t", false⟩,
         ⟨3, 1, "x", "t", false⟩]⟩ 1 2).2.messages.length =
      (⟨[], [⟨2, none, "", "Bob", "", "", "", "", "", "", "", "", "", "t"⟩],
        [⟨2, 1, "hello", "t", false⟩, ⟨1, 2, "yo", "t", false⟩,
         ⟨3, 1, "x", "t", false⟩]⟩ : DB).messages.length ∧
    (thread (thread ⟨[], [⟨2, none, "", "Bob", "", "", "", "", "", "", "", "", "", "t"⟩],
        [⟨2, 1, "hello", "t", false⟩, ⟨1, 2, "yo", "t", false⟩,
         ⟨3, 1, "x", "t", false⟩]⟩ 1 2).2 1 2).2 =
      (thread ⟨[], [⟨2, none, "", "Bob", "", "", "", "", "", "", "", "", "", "t"⟩],
        [⟨2, 1, "hello", "t", false⟩, ⟨1, 2, "yo", "t", false⟩,
         ⟨3, 1, "x", "t", false⟩]⟩ 1 2).2 :=
  ⟨(thread_markRead_spec _ 1 2 (by decide) (by decide)).2.1,
   (thread_markRead_spec _ 1 2 (by decide) (by decide)).2.2.2⟩

/-- C9: when some user already holds the normalized, lower-cased email, any
registration attempt whose email normalizes and case-folds to the same
string changes nothing and does not succeed; with a non-empty email and
password it redirects to the login page; and a successful registration
appends exactly one user row and one blank profile row (and no message). -/
theorem register_spec :
    (∀ db e pw now h, (∃ u ∈ db.users, u.email = lowerStr (normalize_text e)) →
        (register db e pw now h).2 = db ∧ (register db e pw now h).1 ≠ .success) ∧
    (∀ db e pw now h, lowerStr (normalize_text e) ≠ "" → pw ≠ "" →
        (∃ u ∈ db.users, u.email = lowerStr (normalize_text e)) →
        register db e pw now h = (.redirectLogin, db)) ∧
    (∀ db e pw now h, (register db e pw now h).1 = .success →
        (register db e pw now h).2.users =
          db.users ++ [⟨freshUserId db.users, lowerStr (normalize_text e), h pw, now⟩] ∧
        (register db e pw now h).2.profiles =
          db.profiles ++ [blankProfile (freshUserId db.users) now] ∧
        (register db e pw now h).2.messages = db.messages) := by
  have hfind : ∀ (db : DB) (e : String),
      (∃ u ∈ db.users, u.email = lowerStr (normalize_text e)) →
      ((db.users.find? fun u => u.email == lowerStr (normalize_text e)).isSome = true) := by
    intro db e ⟨u, hu, he⟩
    rw [List.find?_isSome]
    exact ⟨u, hu, by rw [he, beq_self_eq_true]⟩
  refine ⟨?_, ?_, ?_⟩
  · intro db e pw now h hdup
    by_cases h1 : (lowerStr (normalize_text e) == "" || pw == "") = true
    · constructor
      · unfold register
        dsimp only
        rw [if_pos h1]
      · unfold register
        dsimp only
        rw [if_pos h1]
        simp
    · constructor
      · unfold register
        dsimp only
        rw [if_neg h1, if_pos (hfind db e hdup)]
      · unfold register
        dsimp only
        rw [if_neg h1, if_pos (hfind db e hdup)]
        simp
  · intro db e pw now h he hpw hdup
    have h1 : ¬(lowerStr (normalize_text e) == "" || pw == "") = true := by
      simp [he, hpw]
    unfold register
    dsimp only
    rw [if_neg h1, if_pos (hfind db e hdup)]
  · intro db e pw now h hs
    by_cases h1 : (lowerStr (normalize_text e) == "" || pw == "") = true
    · exfalso
      revert hs
      unfold register
      dsimp only
      rw [if_pos h1]
      simp
    · by_cases h2 : ((db.users.find? fun u => u.email == lowerStr (normalize_text e)).isSome = true)
      · exfalso
        revert hs
        unfold register
        dsimp only
        rw [if_neg h1, if_pos h2]
        simp
      · refine ⟨?_, ?_, ?_⟩ <;>
          · unfold register
            dsimp only
            rw [if_neg h1, if_neg h2]

/-- `register_spec` evaluated: a duplicate (after normalization and
case-folding) email is turned away, the first registration inserts the user
and blank profile rows. -/
theorem register_spec_witness :
    register ⟨[⟨1, "a@b.c", "h", "t"⟩], [], []⟩ " A@B.C " "pw" "t2" (fun _ => "H") =
      (.redirectLogin, ⟨[⟨1, "a@b.c", "h", "t"⟩], [], []⟩) ∧
    (register ⟨[], [], []⟩ "A@B.C" "pw" "t" (fun _ => "H")).2.users =
      [⟨1, "a@b.c", "H", "t"⟩] ∧
    (register ⟨[], [], []⟩ "A@B.C" "pw" "t" (fun _ => "H")).2.profiles =
      [blankProfile 1 "t"] :=
  ⟨register_spec.2.1 ⟨[⟨1, "a@b.c", "h", "t"⟩], [], []⟩ " A@B.C " "pw" "t2" (fun _ => "H")
      (by decide) (by decide) ⟨⟨1, "a@b.c", "h", "t"⟩, by decide, by decide⟩,
   (register_spec.2.2 ⟨[], [], []⟩ "A@B.C" "pw" "t" (fun _ => "H") (by decide)).1,
   (register_spec.2.2 ⟨[], [], []⟩ "A@B.C" "pw" "t" (fun _ => "H") (by decide)).2.1⟩

/-! ### SQL `LIKE` and the `/search` route (app.py 1063-1121)

The route builds `like = f"%{q}%"` and tests seven columns with
`column LIKE ?`, OR-combined, plus exact-match filters on `university` and
`position`, each clause added only when the corresponding normalized
parameter is non-empty; then `ORDER BY p.updated_at DESC LIMIT 200`. -/

/-- Does `f` hold of some suffix (the whole list, ..., the empty list)?
Helper for the `%` wildcard. -/
def suffixAny (f : List Char → Bool) : List Char → Bool
  | [] => f []
  | c :: s => f (c :: s) || suffixAny f s

/-- SQLite `LIKE`: `%` matches any sequence, `_` matches exactly one
character, any other pattern character matches a single character up to
ASCII case folding (SQLite's `LIKE` is case-insensitive for ASCII only,
which is exactly what `Char.toLower` folds). -/
def likeMatch : List Char → List Char → Bool
  | [], s => s.isEmpty
  | p :: ps, s =>
    if p = '%' then suffixAny (likeMatch ps) s
    else
      match s with
      | [] => false
      | c :: s' =>
        if p = '_' then likeMatch ps s'
        else (p.toLower == c.toLower) && likeMatch ps s'

/-- One `column LIKE ?` test with parameter `f"%{q}%"` (app.py 1075). -/
def fieldLike (q field : String) : Bool :=
  likeMatch ('%' :: (q.data ++ ['%'])) field.data

/-- Specification-side predicate (the spec's words, for comparison with the
`LIKE`-based code): `q` occurs in `s` as an ASCII-case-insensitive
substring, i.e. some block of consecutive characters of `s` lower-cases to
the lower-casing of `q`. -/
def containsCI (q s : String) : Bool :=
  (List.range (s.data.length + 1)).any fun n =>
    ((s.data.drop n).take q.data.length).map Char.toLower == q.data.map Char.toLower

/-- `q` contains no SQL `LIKE` wildcard. -/
def noWild (q : String) : Prop := ∀ c ∈ q.data, c ≠ '%' ∧ c ≠ '_'

instance (q : String) : Decidable (noWild q) :=
  inferInstanceAs (Decidable (∀ c ∈ q.data, c ≠ '%' ∧ c ≠ '_'))

/-- Query-string parameters of `/search`; an absent parameter is `""`. -/
structure SearchArgs where
  doFlag : String  -- the "do" parameter
  q : String
  university : String
  position : String
  deriving DecidableEq, Repr

/-- The WHERE clause of the search query (app.py 1078-1105), applied to one
profile row: not the searcher's own row, the exact-match filters when
non-empty, and the seven-column `LIKE` disjunction when the keyword is
non-empty. -/
def searchWhere (uid : Nat) (q university position : String) (p : ProfileRow) : Bool :=
  p.user_id != uid
  && (university == "" || p.university == university)
  && (position == "" || p.position == position)
  && (q == "" || (fieldLike q p.full_name || fieldLike q p.title || fieldLike q p.bio
       || fieldLike q p.skills || fieldLike q p.device_access || fieldLike q p.school_faculty
       || fieldLike q p.supervisor_name))

/-- `ORDER BY p.updated_at DESC`: most recently updated first.  SQLite
compares TEXT lexicographically and the stored ISO timestamps sort
chronologically. -/
def newerFirst (a b : ProfileRow) : Prop := b.updated_at ≤ a.updated_at

instance : DecidableRel newerFirst :=
  fun a b => inferInstanceAs (Decidable (b.updated_at ≤ a.updated_at))

instance : IsTotal ProfileRow newerFirst :=
  ⟨fun a b => le_total b.updated_at a.updated_at⟩

instance : IsTrans ProfileRow newerFirst :=
  ⟨fun _ _ _ h1 h2 => le_trans h2 h1⟩

/-- The `/search` handler (app.py 1063-1121).  Without `do=1` no database
query runs and the rendered result list is empty; with `do=1` the
parameters are normalized and the filtered rows are returned ordered by
`updated_at` descending, capped at 200. -/
def search_results (db : DB) (uid : Nat) (args : SearchArgs) : List ProfileRow :=
  if args.doFlag == "1" then
    (List.insertionSort newerFirst
      (db.profiles.filter (searchWhere uid (normalize_text args.q)
        (normalize_text args.university) (normalize_text args.position)))).take 200
  else []

/-- C10: when the `do` parameter is not `"1"` the search handler runs no
database query — the result list is empty and independent of the entire
database state — whatever the keyword, university and position parameters
are. -/
theorem search_no_submit_spec (db db' : DB) (uid uid' : Nat) (args : SearchArgs)
    (h : args.doFlag ≠ "1") :
    search_results db uid args = [] ∧
    search_results db uid args = search_results db' uid' args := by
  have hb : (args.doFlag == "1") = false := by
    simpa using h
  constructor <;> simp [search_results, hb]

/-- `search_no_submit_spec` on a populated database with every filter set
but `do` absent. -/
theorem search_no_submit_spec_witness :
    search_results ⟨[], [⟨2, none, "", "abc", "", "", "", "", "", "", "", "", "", "t"⟩], []⟩ 1
        ⟨"", "abc", "University of Sydney", "PhD Candidate"⟩ = [] ∧
    search_results ⟨[], [⟨2, none, "", "abc", "", "", "", "", "", "", "", "", "", "t"⟩], []⟩ 1
        ⟨"", "abc", "University of Sydney", "PhD Candidate"⟩ =
      search_results ⟨[], [], []⟩ 7 ⟨"", "abc", "University of Sydney", "PhD Candidate"⟩ :=
  search_no_submit_spec ⟨[], [⟨2, none, "", "abc", "", "", "", "", "", "", "", "", "", "t"⟩], []⟩
    ⟨[], [], []⟩ 1 7 ⟨"", "abc", "University of Sydney", "PhD Candidate"⟩ (by decide)

/-- C3: every submitted search (`do=1`) returns a list that never contains
the searching user's own profile, has at most 200 rows, and is ordered by
`updated_at`, most recent first. -/
theorem search_submitted_spec (db : DB) (uid : Nat) (args : SearchArgs)
    (h : args.doFlag = "1") :
    (∀ p ∈ search_results db uid args, p.user_id ≠ uid) ∧
    (search_results db uid args).length ≤ 200 ∧
    List.Pairwise newerFirst (search_results db uid args) := by
  have hb : (args.doFlag == "1") = true := by
    simp [h]
  have hres : search_results db uid args =
      (List.insertionSort newerFirst
        (db.profiles.filter (searchWhere uid (normalize_text args.q)
          (normalize_text args.university) (normalize_text args.position)))).take 200 := by
    simp [search_results, hb]
  refine ⟨?_, ?_, ?_⟩
  · intro p hp
    rw [hres] at hp
    have hp2 : p ∈ List.insertionSort newerFirst
        (db.profiles.filter (searchWhere uid (normalize_text args.q)
          (normalize_text args.university) (normalize_text args.position))) :=
      (List.take_sublist _ _).subset hp
    have hp3 : p ∈ db.profiles.filter (searchWhere uid (normalize_text args.q)
        (normalize_text args.university) (normalize_text args.position)) :=
      (List.perm_insertionSort newerFirst _).mem_iff.mp hp2
    have hw := (List.mem_filter.mp hp3).2
    unfold searchWhere at hw
    simp only [Bool.and_eq_true, bne_iff_ne] at hw
    exact hw.1.1.1
  · rw [hres]
    exact List.length_take_le _ _
  · rw [hres]
    exact (List.sorted_insertionSort newerFirst _).sublist (List.take_sublist _ _)

/-- `search_submitted_spec` on a concrete submitted search. -/
theorem search_submitted_spec_witness :
    (search_results ⟨[], [⟨2, none, "", "abc", "", "", "", "", "", "", "", "", "", "t"⟩], []⟩ 1
        ⟨"1", "", "", ""⟩).length ≤ 200 ∧
    List.Pairwise newerFirst
      (search_results ⟨[], [⟨2, none, "", "abc", "", "", "", "", "", "", "", "", "", "t"⟩], []⟩ 1
        ⟨"1", "", "", ""⟩) :=
  ⟨(search_submitted_spec ⟨[], [⟨2, none, "", "abc", "", "", "", "", "", "", "", "", "", "t"⟩], []⟩
      1 ⟨"1", "", "", ""⟩ rfl).2.1,
   (search_submitted_spec ⟨[], [⟨2, none, "", "abc", "", "", "", "", "", "", "", "", "", "t"⟩], []⟩
      1 ⟨"1", "", "", ""⟩ rfl).2.2⟩

theorem suffixAny_eq_true (f : List Char → Bool) (s : List Char) :
    suffixAny f s = true ↔ ∃ n, n ≤ s.length ∧ f (List.drop n s) = true := by
  induction s with
  | nil =>
    simp only [suffixAny, List.length_nil, Nat.le_zero, List.drop_nil]
    constructor
    · intro h
      exact ⟨0, rfl, h⟩
    · rintro ⟨n, -, hf⟩
      exact hf
  | cons c s ih =>
    simp only [suffixAny, Bool.or_eq_true, ih]
    constructor
    · rintro (h | ⟨n, hn, hf⟩)
      · exact ⟨0, Nat.zero_le _, h⟩
      · exact ⟨n + 1, Nat.succ_le_succ hn, hf⟩
    · rintro ⟨n, hn, hf⟩
      cases n with
      | zero => exact .inl hf
      | succ n => exact .inr ⟨n, Nat.le_of_succ_le_succ hn, hf⟩

theorem likeMatch_lit_pct (q : List Char) (hq : ∀ c ∈ q, c ≠ '%' ∧ c ≠ '_')
    (t : List Char) :
    likeMatch (q ++ ['%']) t = true ↔
      (List.take q.length t).map Char.toLower = q.map Char.toLower := by
  induction q generalizing t with
  | nil =>
    simp only [List.nil_append, List.length_nil, List.take_zero, List.map_nil]
    constructor
    · intro _
      trivial
    · intro _
      have h1 : likeMatch ['%'] t = suffixAny (likeMatch []) t := by
        simp [likeMatch]
      rw [h1, suffixAny_eq_true]
      exact ⟨t.length, Nat.le_refl _, by simp [likeMatch]⟩
  | cons c q ih =>
    have hc := hq c (List.mem_cons_self c q)
    cases t with
    | nil =>
      simp only [List.cons_append, likeMatch, if_neg hc.1]
      simp
    | cons d t' =>
      simp only [List.cons_append, likeMatch, if_neg hc.1, if_neg hc.2, List.append_eq]
      rw [Bool.and_eq_true, beq_iff_eq,
        ih (fun x hx => hq x (List.mem_cons_of_mem c hx)) t']
      simp only [List.length_cons, List.take_succ_cons, List.map_cons, List.cons.injEq]
      constructor
      · rintro ⟨h1, h2⟩
        exact ⟨h1.symm, h2⟩
      · rintro ⟨h1, h2⟩
        exact ⟨h1.symm, h2⟩

theorem fieldLike_eq_containsCI (q : String) (hw : noWild q) (s : String) :
    fieldLike q s = containsCI q s := by
  rw [Bool.eq_iff_iff]
  have h1 : fieldLike q s = suffixAny (likeMatch (q.data ++ ['%'])) s.data := by
    simp [fieldLike, likeMatch]
  rw [h1, suffixAny_eq_true]
  unfold containsCI
  rw [List.any_eq_true]
  constructor
  · rintro ⟨n, hn, hf⟩
    refine ⟨n, List.mem_range.mpr (Nat.lt_succ_of_le hn), ?_⟩
    rw [beq_iff_eq]
    exact ((likeMatch_lit_pct q.data hw _).mp hf)
  · rintro ⟨n, hn, hf⟩
    rw [beq_iff_eq] at hf
    exact ⟨n, Nat.le_of_lt_succ (List.mem_range.mp hn),
      (likeMatch_lit_pct q.data hw _).mpr hf⟩

theorem searchWhere_eq_true (uid : Nat) (q u pos : String) (p : ProfileRow)
    (hq : q ≠ "") (hw : noWild q) :
    searchWhere uid q u pos p = true ↔
      (p.user_id ≠ uid ∧
       (containsCI q p.full_name = true ∨ containsCI q p.title = true ∨
        containsCI q p.bio = true ∨ containsCI q p.skills = true ∨
        containsCI q p.device_access = true ∨ containsCI q p.school_faculty = true ∨
        containsCI q p.supervisor_name = true) ∧
       (u ≠ "" → p.university = u) ∧ (pos ≠ "" → p.position = pos)) := by
  unfold searchWhere
  simp only [Bool.and_eq_true, Bool.or_eq_true, bne_iff_ne, beq_iff_eq,
    fieldLike_eq_containsCI q hw, or_assoc]
  constructor
  · rintro ⟨⟨⟨h1, h2⟩, h3⟩, h4⟩
    refine ⟨h1, ?_, ?_, ?_⟩
    · rcases h4 with h4 | h4
      · exact absurd h4 hq
      · exact h4
    · intro hu
      rcases h2 with h2 | h2
      · exact absurd h2 hu
      · exact h2
    · intro hpos
      rcases h3 with h3 | h3
      · exact absurd h3 hpos
      · exact h3
  · rintro ⟨h1, h4, h2, h3⟩
    refine ⟨⟨⟨h1, ?_⟩, ?_⟩, .inr h4⟩
    · by_cases hu : u = ""
      · exact .inl hu
      · exact .inr (h2 hu)
    · by_cases hpos : pos = ""
      · exact .inl hpos
      · exact .inr (h3 hpos)

/-- C5 counterexample: the claim "a profile is returned exactly when the
keyword occurs as a case-insensitive substring of one of the seven text
fields (and the filters match)" is false as stated.  With keyword `"%"`
(an SQL `LIKE` wildcard, untouched by `normalize_text`), the profile with
`full_name = "abc"` — whose seven searched fields are `"abc"` and six empty
strings, none containing `"%"` — is returned to searcher 1. -/
theorem search_keyword_claim_counterexample :
    (⟨2, none, "", "abc", "", "", "", "", "", "", "", "", "", "t"⟩ : ProfileRow) ∈
      search_results ⟨[], [⟨2, none, "", "abc", "", "", "", "", "", "", "", "", "", "t"⟩], []⟩
        1 ⟨"1", "%", "", ""⟩ ∧
    normalize_text "%" = "%" ∧
    containsCI "%" "abc" = false ∧ containsCI "%" "" = false := by
  decide

/-- C5 (amended: the keyword contains no SQL `LIKE` wildcard `%` or `_`):
for every submitted search with a non-empty wildcard-free normalized
keyword whose filtered match set fits the 200-row cap, a profile is
returned exactly when it is a stored profile other than the searcher's own,
the keyword occurs as an ASCII-case-insensitive substring of one of the
seven searched text fields, and it agrees with each non-empty exact-match
filter. -/
theorem search_keyword_spec (db : DB) (uid : Nat) (args : SearchArgs)
    (hdo : args.doFlag = "1")
    (hq : normalize_text args.q ≠ "")
    (hw : noWild (normalize_text args.q))
    (hcap : (db.profiles.filter (searchWhere uid (normalize_text args.q)
        (normalize_text args.university) (normalize_text args.position))).length ≤ 200) :
    ∀ p, p ∈ search_results db uid args ↔
      (p ∈ db.profiles ∧ p.user_id ≠ uid ∧
       (containsCI (normalize_text args.q) p.full_name = true ∨
        containsCI (normalize_text args.q) p.title = true ∨
        containsCI (normalize_text args.q) p.bio = true ∨
        containsCI (normalize_text args.q) p.skills = true ∨
        containsCI (normalize_text args.q) p.device_access = true ∨
        containsCI (normalize_text args.q) p.school_faculty = true ∨
        containsCI (normalize_text args.q) p.supervisor_name = true) ∧
       (normalize_text args.university ≠ "" →
          p.university = normalize_text args.university) ∧
       (normalize_text args.position ≠ "" →
          p.position = normalize_text args.position)) := by
  intro p
  have hb : (args.doFlag == "1") = true := by
    simp [hdo]
  have hlen : (List.insertionSort newerFirst
      (db.profiles.filter (searchWhere uid (normalize_text args.q)
        (normalize_text args.university) (normalize_text args.position)))).length ≤ 200 := by
    rw [(List.perm_insertionSort newerFirst _).length_eq]
    exact hcap
  have hres : search_results db uid args =
      List.insertionSort newerFirst
        (db.profiles.filter (searchWhere uid (normalize_text args.q)
          (normalize_text args.university) (normalize_text args.position))) := by
    simp only [search_results, hb, if_pos]
    exact List.take_of_length_le hlen
  rw [hres, (List.perm_insertionSort newerFirst _).mem_iff, List.mem_filter,
    searchWhere_eq_true uid _ _ _ p hq hw]

/-- `search_keyword_spec` instantiated: the keyword "gel" (no wildcards)
finds the profile whose name contains "Hydrogel". -/
theorem search_keyword_spec_witness :
    (⟨2, none, "", "Hydrogel lab", "", "", "", "", "", "", "", "", "", "t"⟩ : ProfileRow) ∈
      search_results
        ⟨[], [⟨2, none, "", "Hydrogel lab", "", "", "", "", "", "", "", "", "", "t"⟩], []⟩
        1 ⟨"1", "gel", "", ""⟩ :=
  (search_keyword_spec
      ⟨[], [⟨2, none, "", "Hydrogel lab", "", "", "", "", "", "", "", "", "", "t"⟩], []⟩
      1 ⟨"1", "gel", "", ""⟩ rfl (by decide) (by decide) (by decide)
      ⟨2, none, "", "Hydrogel lab", "", "", "", "", "", "", "", "", "", "t"⟩).mpr
    (by decide)

/-! ### Upload helpers and the profile-edit POST (app.py 291-309, 942-1041) -/

/-- Index of the last `'.'` in the list, if any (Python `str.rfind`). -/
def lastIdxOfDot : List Char → Option Nat
  | [] => none
  | c :: cs =>
    match lastIdxOfDot cs with
    | some i => some (i + 1)
    | none => if c == '.' then some 0 else none

/-- `pathlib.Path(name).suffix` for a bare file name (the only call sites
pass `secure_filename` output, which has no path separators): the substring
from the last dot, unless that dot is the first character or the name ends
with it. -/
def pathSuffix (name : String) : String :=
  match lastIdxOfDot name.data with
  | none => ""
  | some i => if 0 < i ∧ i < name.data.length - 1 then ⟨name.data.drop i⟩ else ""

def ALLOWED_EXTENSIONS : List String := [".png", ".jpg", ".jpeg", ".webp"]

/-- `allowed_file` (app.py 291-293): the lower-cased suffix is one of the
four image extensions. -/
def allowed_file (filename : String) : Bool :=
  ALLOWED_EXTENSIONS.contains (lowerStr (pathSuffix filename))

/-- An uploaded file as the handler sees it (client-supplied name; the
bytes are irrelevant to every property here). -/
structure FileStorage where
  filename : String
  deriving DecidableEq, Repr

inductive PhotoRes where
  | err (msg : String)  -- the raised ValueError
  | ok (name : String)  -- "" when nothing was stored
  deriving DecidableEq, Repr

/-- `save_photo` (app.py 296-309).  `sanitize` stands for werkzeug's
`secure_filename`; `ts` is `int(datetime.utcnow().timestamp())`. -/
def save_photo (sanitize : String → String) (file : Option FileStorage)
    (user_id ts : Nat) : PhotoRes :=
  match file with
  | none => .ok ""
  | some f =>
    if f.filename == "" then .ok ""
    else
      let filename := sanitize f.filename
      if filename == "" then .ok ""
      else if !allowed_file filename then
        .err "Invalid file type. Use PNG/JPG/JPEG/WEBP only."
      else .ok ("user_" ++ toString user_id ++ "_" ++ toString ts ++
        lowerStr (pathSuffix filename))

/-- The text fields of the profile-edit form. -/
structure EditForm where
  title : String
  full_name : String
  highest_qualification : String
  country : String
  university : String
  school_faculty : String
  position : String
  supervisor_name : String
  bio : String
  skills : String
  device_access : String
  deriving DecidableEq, Repr

inductive EditOutcome where
  | errFileType  -- flash(error) + redirect before any UPDATE
  | warnMissing  -- required-field validation failed, no UPDATE
  | saved
  deriving DecidableEq, Repr

/-- Python's `"student" in position.lower()` (app.py 987). -/
def containsStudent (position : String) : Bool :=
  (List.range ((position.data.map Char.toLower).length + 1)).any fun n =>
    ((position.data.map Char.toLower).drop n).take "student".data.length == "student".data

/-- The photo step of the POST handler (app.py 956-966): `save_photo` runs
only when a file with a non-empty client filename is present; a falsy
result leaves the SQL parameter at NULL (here `""`). -/
def photoStep (sanitize : String → String) (photo : Option FileStorage)
    (user_id ts : Nat) : PhotoRes :=
  match photo with
  | none => .ok ""
  | some f => if f.filename == "" then .ok "" else save_photo sanitize (some f) user_id ts

/-- Required-field validation (app.py 982): `device_access` is optional. -/
def requiredFilled (form : EditForm) : Bool :=
  normalize_text form.full_name != "" && normalize_text form.highest_qualification != ""
  && normalize_text form.country != "" && normalize_text form.university != ""
  && normalize_text form.position != "" && normalize_text form.bio != ""
  && normalize_text form.skills != ""

/-- The UPDATE (app.py 986-1024): every text column is replaced by the
normalized form value, `supervisor_name` is cleared unless the position
contains "student", `updated_at` is replaced, and `photo_filename` is
`COALESCE(?, photo_filename)`: kept when the parameter is NULL (`fn = ""`,
no newly stored file). -/
def updatedRow (prof : ProfileRow) (form : EditForm) (fn : String) (now : String) :
    ProfileRow :=
  { user_id := prof.user_id
    photo_filename := if fn == "" then prof.photo_filename else some fn
    title := normalize_text form.title
    full_name := normalize_text form.full_name
    highest_qualification := normalize_text form.highest_qualification
    country := normalize_text form.country
    university := normalize_text form.university
    school_faculty := normalize_text form.school_faculty
    position := normalize_text form.position
    supervisor_name := if containsStudent (normalize_text form.position)
      then normalize_text form.supervisor_name else ""
    bio := normalize_text form.bio
    skills := normalize_text form.skills
    device_access := normalize_text form.device_access
    updated_at := now }

/-- The POST branch of `profile_edit` (app.py 955-1027), acting on the
stored row of the logged-in user: photo step first (an invalid file type
redirects before anything is written), then validation, then the UPDATE. -/
def profile_edit_post (sanitize : String → String) (prof : ProfileRow) (form : EditForm)
    (photo : Option FileStorage) (ts : Nat) (now : String) : EditOutcome × ProfileRow :=
  match photoStep sanitize photo prof.user_id ts with
  | .err _ => (.errFileType, prof)
  | .ok fn =>
    if requiredFilled form then (.saved, updatedRow prof form fn now)
    else (.warnMissing, prof)

theorem profile_edit_post_saved (sanitize : String → String) (prof : ProfileRow)
    (form : EditForm) (photo : Option FileStorage) (ts : Nat) (now : String)
    (hsaved : (profile_edit_post sanitize prof form photo ts now).1 = .saved) :
    requiredFilled form = true ∧
    ∃ fn, photoStep sanitize photo prof.user_id ts = .ok fn ∧
      profile_edit_post sanitize prof form photo ts now = (.saved, updatedRow prof form fn now) := by
  cases hps : photoStep sanitize photo prof.user_id ts with
  | err m =>
    exfalso
    unfold profile_edit_post at hsaved
    rw [hps] at hsaved
    simp at hsaved
  | ok fn =>
    have hreq : requiredFilled form = true := by
      by_contra hreq
      unfold profile_edit_post at hsaved
      rw [hps] at hsaved
      dsimp only at hsaved
      rw [if_neg hreq] at hsaved
      simp at hsaved
    refine ⟨hreq, fn, rfl, ?_⟩
    unfold profile_edit_post
    rw [hps]
    dsimp only
    rw [if_pos hreq]

theorem append_ne_empty_left (s t : String) (hs : s ≠ "") : s ++ t ≠ "" := by
  intro h
  apply hs
  rw [String.ext_iff] at h ⊢
  rw [String.data_append] at h
  exact (List.append_eq_nil.mp h).1

/-- C6: on a successful profile-edit POST with no newly stored photo (no
file, an empty client filename, or a filename the sanitizer maps to
nothing), the stored `photo_filename` is exactly what it was while every
other column is replaced by the submitted (normalized) value and
`updated_at` by the new timestamp; and when a valid-extension file is
provided, `photo_filename` becomes the server-generated name. -/
theorem profile_edit_photo_frame_spec :
    (∀ sanitize prof form photo ts now,
      (profile_edit_post sanitize prof form photo ts now).1 = .saved →
      (photo = none ∨ ∃ f, photo = some f ∧ (f.filename = "" ∨ sanitize f.filename = "")) →
      ((profile_edit_post sanitize prof form photo ts now).2.photo_filename =
          prof.photo_filename ∧
        (profile_edit_post sanitize prof form photo ts now).2.user_id = prof.user_id ∧
        (profile_edit_post sanitize prof form photo ts now).2.title =
          normalize_text form.title ∧
        (profile_edit_post sanitize prof form photo ts now).2.full_name =
          normalize_text form.full_name ∧
        (profile_edit_post sanitize prof form photo ts now).2.highest_qualification =
          normalize_text form.highest_qualification ∧
        (profile_edit_post sanitize prof form photo ts now).2.country =
          normalize_text form.country ∧
        (profile_edit_post sanitize prof form photo ts now).2.university =
          normalize_text form.university ∧
        (profile_edit_post sanitize prof form photo ts now).2.school_faculty =
          normalize_text form.school_faculty ∧
        (profile_edit_post sanitize prof form photo ts now).2.position =
          normalize_text form.position ∧
        (profile_edit_post sanitize prof form photo ts now).2.supervisor_name =
          (if containsStudent (normalize_text form.position)
            then normalize_text form.supervisor_name else "") ∧
        (profile_edit_post sanitize prof form photo ts now).2.bio =
          normalize_text form.bio ∧
        (profile_edit_post sanitize prof form photo ts now).2.skills =
          normalize_text form.skills ∧
        (profile_edit_post sanitize prof form photo ts now).2.device_access =
          normalize_text form.device_access ∧
        (profile_edit_post sanitize prof form photo ts now).2.updated_at = now)) ∧
    (∀ sanitize prof form (f : FileStorage) ts now,
      (profile_edit_post sanitize prof form (some f) ts now).1 = .saved →
      f.filename ≠ "" → sanitize f.filename ≠ "" →
      allowed_file (sanitize f.filename) = true →
      (profile_edit_post sanitize prof form (some f) ts now).2.photo_filename =
        some ("user_" ++ toString prof.user_id ++ "_" ++ toString ts ++
          lowerStr (pathSuffix (sanitize f.filename)))) := by
  constructor
  · intro sanitize prof form photo ts now hsaved hnophoto
    obtain ⟨hreq, fn, hps, hpost⟩ :=
      profile_edit_post_saved sanitize prof form photo ts now hsaved
    have hfn : fn = "" := by
      rcases hnophoto with rfl | ⟨f, rfl, hf⟩
      · simp [photoStep] at hps
        exact hps.symm
      · rcases hf with hf | hf
        · simp [photoStep, hf] at hps
          exact hps.symm
        · by_cases hf0 : f.filename = ""
          · simp [photoStep, hf0] at hps
            exact hps.symm
          · simp [photoStep, save_photo, hf0, hf] at hps
            exact hps.symm
    subst hfn
    rw [hpost]
    exact ⟨by simp [updatedRow], rfl, rfl, rfl, rfl, rfl, rfl, rfl, rfl, rfl, rfl, rfl,
      rfl, rfl⟩
  · intro sanitize prof form f ts now hsaved hfne hsane hok
    obtain ⟨hreq, fn, hps, hpost⟩ :=
      profile_edit_post_saved sanitize prof form (some f) ts now hsaved
    have hf1 : (f.filename == "") = false := by simpa using hfne
    have hf2 : (sanitize f.filename == "") = false := by simpa using hsane
    have hgen : photoStep sanitize (some f) prof.user_id ts =
        .ok ("user_" ++ toString prof.user_id ++ "_" ++ toString ts ++
          lowerStr (pathSuffix (sanitize f.filename))) := by
      simp [photoStep, save_photo, hf1, hf2, hok]
    rw [hgen] at hps
    injection hps with hfn
    subst hfn
    rw [hpost]
    have hne : ("user_" ++ toString prof.user_id ++ "_" ++ toString ts ++
        lowerStr (pathSuffix (sanitize f.filename))) ≠ "" :=
      append_ne_empty_left _ _ (append_ne_empty_left _ _ (append_ne_empty_left _ _
        (append_ne_empty_left _ _ (by decide))))
    have hb : (("user_" ++ toString prof.user_id ++ "_" ++ toString ts ++
        lowerStr (pathSuffix (sanitize f.filename))) == "") = false :=
      beq_eq_false_iff_ne.mpr hne
    simp [updatedRow, hb]

/-- `profile_edit_photo_frame_spec` evaluated: a photo-less successful edit
keeps `old.png`; uploading `new.JPG` stores the generated `user_1_0.jpg`. -/
theorem profile_edit_photo_frame_spec_witness :
    (profile_edit_post (fun s => s)
        ⟨1, some "old.png", "", "Old", "PhD", "Australia", "U", "", "Other", "", "b", "s", "", "t"⟩
        ⟨"Dr", "New Name", "PhD", "Australia", "Monash University", "Eng", "Other", "Sup",
          "bio", "skills", ""⟩ none 0 "t2").2.photo_filename = some "old.png" ∧
    (profile_edit_post (fun s => s)
        ⟨1, some "old.png", "", "Old", "PhD", "Australia", "U", "", "Other", "", "b", "s", "", "t"⟩
        ⟨"Dr", "New Name", "PhD", "Australia", "Monash University", "Eng", "Other", "Sup",
          "bio", "skills", ""⟩ (some ⟨"new.JPG"⟩) 0 "t2").2.photo_filename =
      some "user_1_0.jpg" :=
  ⟨(profile_edit_photo_frame_spec.1 (fun s => s)
      ⟨1, some "old.png", "", "Old", "PhD", "Australia", "U", "", "Other", "", "b", "s", "", "t"⟩
      ⟨"Dr", "New Name", "PhD", "Australia", "Monash University", "Eng", "Other", "Sup",
        "bio", "skills", ""⟩ none 0 "t2" (by decide) (.inl rfl)).1,
   profile_edit_photo_frame_spec.2 (fun s => s)
      ⟨1, some "old.png", "", "Old", "PhD", "Australia", "U", "", "Other", "", "b", "s", "", "t"⟩
      ⟨"Dr", "New Name", "PhD", "Australia", "Monash University", "Eng", "Other", "Sup",
        "bio", "skills", ""⟩ ⟨"new.JPG"⟩ 0 "t2" (by decide) (by decide) (by decide) (by decide)⟩

/-- C7: a profile-edit POST whose uploaded file has an unsupported
extension (the sanitizer keeps the name non-empty and preserves the
suffix, as werkzeug's `secure_filename` does for such names) reports the
error and redirects, and the whole stored profile row is exactly as it was
before the request. -/
theorem profile_edit_bad_extension_spec (sanitize : String → String) (prof : ProfileRow)
    (form : EditForm) (f : FileStorage) (ts : Nat) (now : String)
    (hfn : f.filename ≠ "") (hsan : sanitize f.filename ≠ "")
    (hsfx : pathSuffix (sanitize f.filename) = pathSuffix f.filename)
    (hbad : allowed_file f.filename = false) :
    profile_edit_post sanitize prof form (some f) ts now = (.errFileType, prof) := by
  have hbad2 : allowed_file (sanitize f.filename) = false := by
    unfold allowed_file at hbad ⊢
    rw [hsfx]
    exact hbad
  have hf1 : (f.filename == "") = false := by simpa using hfn
  have hf2 : (sanitize f.filename == "") = false := by simpa using hsan
  unfold profile_edit_post photoStep save_photo
  simp [hf1, hf2, hbad2]

/-- `profile_edit_bad_extension_spec` evaluated on an uploaded `x.gif`. -/
theorem profile_edit_bad_extension_spec_witness :
    profile_edit_post (fun s => s)
        ⟨1, some "old.png", "", "Old", "PhD", "Australia", "U", "", "Other", "", "b", "s", "", "t"⟩
        ⟨"Dr", "New Name", "PhD", "Australia", "Monash University", "Eng", "Other", "Sup",
          "bio", "skills", ""⟩ (some ⟨"x.gif"⟩) 0 "t2" =
      (.errFileType,
        ⟨1, some "old.png", "", "Old", "PhD", "Australia", "U", "", "Other", "", "b", "s", "", "t"⟩) :=
  profile_edit_bad_extension_spec (fun s => s)
    ⟨1, some "old.png", "", "Old", "PhD", "Australia", "U", "", "Other", "", "b", "s", "", "t"⟩
    ⟨"Dr", "New Name", "PhD", "Australia", "Monash University", "Eng", "Other", "Sup",
      "bio", "skills", ""⟩ ⟨"x.gif"⟩ 0 "t2" (by decide) (by decide) rfl (by decide)

/-- C8: on a stored (validated) profile-edit POST, the saved
`supervisor_name` is `""` whenever the normalized position does not contain
"student" case-insensitively, whatever was submitted; when it does, the
submitted normalized supervisor name is saved. -/
theorem profile_edit_supervisor_spec (sanitize : String → String) (prof : ProfileRow)
    (form : EditForm) (photo : Option FileStorage) (ts : Nat) (now : String)
    (hsaved : (profile_edit_post sanitize prof form photo ts now).1 = .saved) :
    (containsStudent (normalize_text form.position) = false →
      (profile_edit_post sanitize prof form photo ts now).2.supervisor_name = "") ∧
    (containsStudent (normalize_text form.position) = true →
      (profile_edit_post sanitize prof form photo ts now).2.supervisor_name =
        normalize_text form.supervisor_name) := by
  obtain ⟨hreq, fn, hps, hpost⟩ :=
    profile_edit_post_saved sanitize prof form photo ts now hsaved
  rw [hpost]
  constructor
  · intro hstu
    simp [updatedRow, hstu]
  · intro hstu
    simp [updatedRow, hstu]

/-- `profile_edit_supervisor_spec` evaluated: a "Postdoctoral Researcher"
loses the submitted supervisor, a "Master Student" keeps it. -/
theorem profile_edit_supervisor_spec_witness :
    (profile_edit_post (fun s => s)
        ⟨1, none, "", "Old", "PhD", "Australia", "U", "", "Other", "", "b", "s", "", "t"⟩
        ⟨"", "Name", "PhD", "Australia", "Monash University", "", "Postdoctoral Researcher",
          " Prof  X ", "bio", "skills", ""⟩ none 0 "t2").2.supervisor_name = "" ∧
    (profile_edit_post (fun s => s)
        ⟨1, none, "", "Old", "PhD", "Australia", "U", "", "Other", "", "b", "s", "", "t"⟩
        ⟨"", "Name", "PhD", "Australia", "Monash University", "", "Master Student",
          " Prof  X ", "bio", "skills", ""⟩ none 0 "t2").2.supervisor_name = "Prof X" :=
  ⟨(profile_edit_supervisor_spec (fun s => s)
      ⟨1, none, "", "Old", "PhD", "Australia", "U", "", "Other", "", "b", "s", "", "t"⟩
      ⟨"", "Name", "PhD", "Australia", "Monash University", "", "Postdoctoral Researcher",
        " Prof  X ", "bio", "skills", ""⟩ none 0 "t2" (by decide)).1 (by decide),
   (profile_edit_supervisor_spec (fun s => s)
      ⟨1, none, "", "Old", "PhD", "Australia", "U", "", "Other", "", "b", "s", "", "t"⟩
      ⟨"", "Name", "PhD", "Australia", "Monash University", "", "Master Student",
        " Prof  X ", "bio", "skills", ""⟩ none 0 "t2" (by decide)).2 (by decide)⟩

end CollabFinder
